import Mathlib

/-!
# Shipcat manifest resolution and validation: a shallow embedding

This file embeds the manifest data model and the resolution/validation
engine of `src/manifest.rs` into Lean, and proves or refutes a fixed set
of claims about it.

Modelling conventions:
* Rust `String` is Lean `String`; character-level operations are carried
  out on `String.data` (`List Char`) so that they can be reasoned about
  inductively.  Rust's `str::to_lowercase` is modelled with the ASCII
  `Char.toLower` (the strings involved are ASCII env-var keys).
* `BTreeMap<String, String>` is modelled as an association list
  `List (String × String)`; `entry(k).or_insert(v)` becomes
  "append `(k, v)` when no entry with key `k` is present" — the lookup
  semantics of the map is preserved (only the physical ordering of the
  entries differs, which no operation here observes beyond lookup).
* Rust `f64` quantities are modelled as exact rationals `ℚ`: the parser
  only ever produces decimal literals scaled by integer factors, and the
  validator only compares them, so an exact model is faithful to the
  comparisons the code makes.
* Fallible Rust code (`Result`) is `Except String α`; a Rust *panic*
  (`unwrap` on `None`, a failing `assert!`) is modelled as the `none`
  case of an outer `Option`: `Option (Except String α)`, with
  `none` = panic, `some (.error e)` = `Err(e)`, `some (.ok a)` = `Ok(a)`.
* Filesystem lookups made by `verify` are abstracted into an `FS` record
  of boolean oracles; the override files consulted by `fill` are passed
  in as already-parsed `Option Manifest` values (`none` = file absent).
-/

/-! ## Character / string helpers (models of the Rust `str` operations used) -/

/-- Model of Rust `str::split(c)` at the `List Char` level.
`splitChar c l` splits `l` on every occurrence of `c`; like Rust's
`split`, it yields `[[]]` on the empty list and keeps empty segments. -/
def splitChar (c : Char) : List Char → List (List Char)
  | [] => [[]]
  | x :: xs =>
    let r := splitChar c xs
    if x = c then [] :: r
    else
      match r with
      | [] => [[x]]      -- unreachable: `splitChar` never returns `[]`
      | h :: t => (x :: h) :: t

/-- Model of Rust `str::starts_with`. -/
def startsWithStr (p s : String) : Bool := p.data.isPrefixOf s.data

/-- Model of Rust `str::ends_with`. -/
def endsWithStr (p s : String) : Bool := p.data.isSuffixOf s.data

/-- Model of Rust `str::contains(c)` for a single character. -/
def containsChar (c : Char) (s : String) : Bool := s.data.contains c

/-- Model of `res.to_lowercase().replace("_", "-")` from `Manifest::secrets`
(ASCII lowering, then replacing each underscore by a hyphen). -/
def lowerKebab (s : String) : String :=
  String.mk ((s.data.map Char.toLower).map (fun ch => if ch = '_' then '-' else ch))

/-- Characters Rust's quantity parsers treat as part of the number:
`ch.is_digit(10) || ch == '.'`. -/
def isNumChar (ch : Char) : Bool := ch.isDigit || ch == '.'

/-- The leading digit run of a quantity string
(`s.chars().take_while(|ch| ch.is_digit(10) || *ch == '.')`). -/
def numPart (s : String) : String := String.mk (s.data.takeWhile isNumChar)

/-- The trailing unit of a quantity string
(`s.chars().skip_while(|ch| ch.is_digit(10) || *ch == '.')`). -/
def unitPart (s : String) : String := String.mk (s.data.dropWhile isNumChar)

/-- Numeric value of a digit list (most significant first). -/
def digitsVal (l : List Char) : ℕ :=
  l.foldl (fun a c => a * 10 + (c.toNat - 48)) 0

/-- Model of Rust `"...".parse::<f64>()` restricted to the strings the
quantity parsers feed it (digits and dots only): at most one dot and at
least one digit, value read exactly into `ℚ`.  Mirrors Rust acceptance:
`"1."` and `".5"` parse, `""`, `"."` and `"1.2.3"` do not. -/
def parseDecimal (s : String) : Option ℚ :=
  match splitChar '.' s.data with
  | [i] => if i.isEmpty then none else some (digitsVal i : ℚ)
  | [i, f] =>
    if i.isEmpty && f.isEmpty then none
    else some ((digitsVal i : ℚ) + (digitsVal f : ℚ) / (10 ^ f.length))
  | _ => none

/-! ## Quantity parser (`parse_memory` / `parse_cpu`) -/

/-- Embedding of `parse_memory` (manifest.rs): split the string into a
digit run and a unit, scale by the unit factor; unknown non-empty units
and unparsable digit runs fail. -/
def parse_memory (s : String) : Except String ℚ :=
  let digits := numPart s
  let unit := unitPart s
  match parseDecimal digits with
  | none => .error "invalid float literal"
  | some res =>
    if unit = "Ki" then .ok (res * 1024)
    else if unit = "Mi" then .ok (res * (1024 * 1024))
    else if unit = "Gi" then .ok (res * (1024 * 1024 * 1024))
    else if unit = "k" then .ok (res * 1000)
    else if unit = "M" then .ok (res * (1000 * 1000))
    else if unit = "G" then .ok (res * (1000 * 1000 * 1000))
    else if unit ≠ "" then .error ("Unknown unit " ++ unit)
    else .ok res

/-- Embedding of `parse_cpu` (manifest.rs): `m` divides by 1000, `k`
multiplies by 1000, empty unit is whole cores; other units fail. -/
def parse_cpu (s : String) : Except String ℚ :=
  let digits := numPart s
  let unit := unitPart s
  match parseDecimal digits with
  | none => .error "invalid float literal"
  | some res =>
    if unit = "m" then .ok (res / 1000)
    else if unit = "k" then .ok (res * 1000)
    else if unit ≠ "" then .error ("Unknown unit " ++ unit)
    else .ok res

/-! ## Data model (the structs of manifest.rs) -/

/-- `ResourceRequest`: CPU and memory request strings. -/
structure ResourceRequest where
  cpu : String
  memory : String
deriving DecidableEq, Repr

/-- `ResourceLimit`: CPU and memory limit strings. -/
structure ResourceLimit where
  cpu : String
  memory : String
deriving DecidableEq, Repr

/-- `Resources`: optional k8s requests and limits. -/
structure Resources where
  requests : Option ResourceRequest
  limits : Option ResourceLimit
deriving DecidableEq, Repr

/-- `Replicas`: deployment replica bounds. -/
structure Replicas where
  min : ℕ
  max : ℕ
deriving DecidableEq, Repr

/-- `ConfigMappedFile`: a templated file and its destination. -/
structure ConfigMappedFile where
  name : String
  dest : String
deriving DecidableEq, Repr

/-- `ConfigMap`: optional name, mount path and files. -/
structure ConfigMap where
  name : Option String
  mount : String
  files : List ConfigMappedFile
deriving DecidableEq, Repr

/-- `Dashboard`: metric strings to track. -/
structure Dashboard where
  rows : List String
deriving DecidableEq, Repr

/-- `Prometheus`: polling options. -/
structure Prometheus where
  enabled : Bool
  path : String
deriving DecidableEq, Repr

/-- `Dependency`: a service relied upon and its api version. -/
structure Dependency where
  name : String
  api : Option String
deriving DecidableEq, Repr

/-- `Image`: name, repository and tag. -/
structure Image where
  name : Option String
  repository : Option String
  tag : Option String
deriving DecidableEq, Repr

/-- `VolumeMount`. -/
structure VolumeMount where
  name : String
  mount_path : String
  sub_path : Option String
  read_only : Bool
deriving DecidableEq, Repr

/-- `InitContainer`. -/
structure InitContainer where
  name : String
  image : String
  command : List String
deriving DecidableEq, Repr

/-- `VolumeSecretItem`. -/
structure VolumeSecretItem where
  key : String
  path : String
  mode : ℕ
deriving DecidableEq, Repr

/-- `VolumeSecretDetail`. -/
structure VolumeSecretDetail where
  name : String
  items : List VolumeSecretItem
deriving DecidableEq, Repr

/-- `VolumeSecret`. -/
structure VolumeSecret where
  secret : Option VolumeSecretDetail
deriving DecidableEq, Repr

/-- `ProjectedVolumeSecret`. -/
structure ProjectedVolumeSecret where
  sources : List VolumeSecret
deriving DecidableEq, Repr

/-- `Volume`. -/
structure Volume where
  name : String
  projected : Option ProjectedVolumeSecret
  secret : Option VolumeSecretDetail
deriving DecidableEq, Repr

/-- `VaultOpts`: secret-store namespace override. -/
structure VaultOpts where
  name : String
deriving DecidableEq, Repr

/-- `HealthCheck`: uri, wait and port, each optional. -/
structure HealthCheck where
  uri : Option String
  wait : Option ℕ
  port : Option ℕ
deriving DecidableEq, Repr

/-- `Manifest`: the main manifest struct of manifest.rs.  The env map
(`BTreeMap<String, String>` in the source) is modelled as an
association list; the three internal fields keep their Rust names. -/
structure Manifest where
  name : Option String
  image : Option Image
  command : Option String
  resources : Option Resources
  replicas : Option Replicas
  env : List (String × String)
  configs : Option ConfigMap
  volume_mounts : List VolumeMount
  init_containers : List InitContainer
  ports : List ℕ
  vault : Option VaultOpts
  health : Option HealthCheck
  dependencies : List Dependency
  regions : List String
  volumes : List Volume
  prometheus : Option Prometheus
  dashboards : List (String × Dashboard)
  _path : String
  _namespace : String
  _location : String
deriving DecidableEq, Repr

/-- The manifest with every field unset/empty (serde's
`Default::default()`). -/
def emptyManifest : Manifest where
  name := none
  image := none
  command := none
  resources := none
  replicas := none
  env := []
  configs := none
  volume_mounts := []
  init_containers := []
  ports := []
  vault := none
  health := none
  dependencies := []
  regions := []
  volumes := []
  prometheus := none
  dashboards := []
  _path := ""
  _namespace := ""
  _location := ""

/-! ## Vault client and filesystem abstractions -/

/-- The secret-store client: `Vault::read(path) -> Result<String>`. -/
def VaultClient : Type := String → Except String String

/-- The read-only filesystem oracles `Manifest::verify` consults:
whether `services/{name}` is a directory, and whether
`environments/{region}.yml` is a file. -/
structure FS where
  service_dir_exists : String → Bool
  region_file_exists : String → Bool

/-- The filesystem where every cross-reference exists. -/
def trueFS : FS where
  service_dir_exists := fun _ => true
  region_file_exists := fun _ => true

/-! ## Env map operations -/

/-- Lookup in the association-list model of the env `BTreeMap`. -/
def lookupEnv : List (String × String) → String → Option String
  | [], _ => none
  | (k', v) :: rest, k => if k' = k then some v else lookupEnv rest k

/-- The env part of `Manifest::merge`:
`for (k,v) in mf.env { self.env.entry(k).or_insert(v); }` — each
override entry is added only when its key is absent from the
accumulated map. -/
def envMerge (base ov : List (String × String)) : List (String × String) :=
  ov.foldl
    (fun acc kv => if acc.any (fun p => p.1 = kv.1) then acc else acc ++ [kv])
    base

/-! ## Secret resolution (`Manifest::secrets`) -/

/-- The body of the env loop in `Manifest::secrets` for one `(k, v)`
entry: `IN_VAULT` is read from the vault client at
`"{region}/{svc}/{k}"`; values starting with `IN_KUBE_SECRETS` are
rewritten to a derived `kube-secret-...` reference (the bare prefix
uses the env key, `IN_KUBE_SECRETS:<subkey>` uses the part after the
first colon, failing when it is empty); a prefixed value without a
colon hits `assert!(v.contains(':'))`, i.e. panics (`none`); all other
values pass through. -/
def resolveEnvEntry (client : VaultClient) (region svc k v : String) :
    Option (Except String String) :=
  if v = "IN_VAULT" then
    match client (region ++ "/" ++ svc ++ "/" ++ k) with
    | .ok secret => some (.ok secret)
    | .error e => some (.error e)
  else if startsWithStr "IN_KUBE_SECRETS" v then
    if v = "IN_KUBE_SECRETS" then
      -- no extra info -> same kube secret name as evar name
      some (.ok ("kube-secret-" ++ lowerKebab k))
    else if containsChar ':' v then
      -- key after ':': split and take the second part
      let parts := splitChar ':' v.data
      let p1 := parts.getD 1 []   -- `parts[1]`; `contains ':'` ensures length ≥ 2
      if p1.isEmpty then
        some (.error (v ++ " does not have a valid key path"))
      else
        some (.ok ("kube-secret-" ++ lowerKebab (String.mk p1)))
    else
      none   -- assert!(v.contains(':')) fails: panic
  else
    some (.ok v)

/-- The env loop of `Manifest::secrets`, entry by entry; the first
panic or error aborts. -/
def secretsEnv (client : VaultClient) (region svc : String) :
    List (String × String) → Option (Except String (List (String × String)))
  | [] => some (.ok [])
  | (k, v) :: rest =>
    match resolveEnvEntry client region svc k v with
    | none => none
    | some (.error e) => some (.error e)
    | some (.ok v') =>
      match secretsEnv client region svc rest with
      | none => none
      | some (.error e) => some (.error e)
      | some (.ok rest') => some (.ok ((k, v') :: rest'))

/-- Embedding of `Manifest::secrets`: pick the effective secret
namespace (`vault.name`, else the manifest's own name — unwrapped, so
a missing name panics), then rewrite every env entry. -/
def Manifest.secrets (client : VaultClient) (region : String) (m : Manifest) :
    Option (Except String Manifest) :=
  match (match m.vault with
         | some vopts => some vopts.name
         | none => m.name) with
  | none => none   -- self.name.clone().unwrap() panics
  | some svc =>
    match secretsEnv client region svc m.env with
    | none => none
    | some (.error e) => some (.error e)
    | some (.ok env') => some (.ok { m with env := env' })

/-! ## Implicit defaults (`Manifest::implicits`) -/

/-- Embedding of `Manifest::implicits`: fill `image` from the service
name, `configs.name` as `"{name}-config"`, `health.port` from the
first exposed port (creating a health block when ports exist and none
was given), and default every dependency's `api` to `"v1"`.  The
leading `self.name.clone().unwrap()` panics when `name` is unset. -/
def Manifest.implicits (m : Manifest) : Option Manifest :=
  match m.name with
  | none => none   -- self.name.clone().unwrap() panics
  | some name =>
    let image := match m.image with
      | none => some { name := some name, repository := none, tag := none }
      | some img => some img
    let configs := match m.configs with
      | none => none
      | some cfg =>
        some { cfg with
               name := match cfg.name with
                       | none => some (name ++ "-config")
                       | some n => some n }
    let health := if m.ports.isEmpty then m.health else
      match m.health with
      | some h =>
        some { h with port := match h.port with
                              | none => some (m.ports.getD 0 0)
                              | some p => some p }
      | none => some { uri := none, wait := none, port := some (m.ports.getD 0 0) }
    let dependencies := m.dependencies.map
      (fun d => { d with api := match d.api with
                                | none => some "v1"
                                | some a => some a })
    some { m with image := image, configs := configs, health := health,
                  dependencies := dependencies }

/-! ## Layered merge (`Manifest::merge`) -/

/-- The image part of `Manifest::merge`: when the override has an image
block, `self.image` is unwrapped (panicking when absent) and its unset
`repository`/`tag` are filled from the override. -/
def mergeImage (selfImg mfImg : Option Image) : Option (Option Image) :=
  match mfImg with
  | none => some selfImg
  | some img =>
    match selfImg with
    | none => none   -- self.image.clone().unwrap() panics
    | some curr =>
      some (some { curr with
                   repository := match curr.repository with
                                 | none => img.repository
                                 | some r => some r,
                   tag := match curr.tag with
                          | none => img.tag
                          | some t => some t })

/-- The resources part of `Manifest::merge`: adopt the override's block
when the base has none; then fill a missing `limits`/`requests`
sub-block from `mf.resources.clone().unwrap()` — which panics when the
override has no resources block. -/
def mergeResources (selfRes mfRes : Option Resources) : Option (Option Resources) :=
  let res0 := if selfRes.isNone && mfRes.isSome then mfRes else selfRes
  match res0 with
  | none => some none
  | some res =>
    match (match res.limits with
           | some l => some (some l)
           | none => match mfRes with
                     | none => none   -- mf.resources.clone().unwrap() panics
                     | some mr => some mr.limits) with
    | none => none
    | some limits =>
      match (match res.requests with
             | some r => some (some r)
             | none => match mfRes with
                       | none => none   -- mf.resources.clone().unwrap() panics
                       | some mr => some mr.requests) with
      | none => none
      | some requests => some (some { requests := requests, limits := limits })

/-- The health part of `Manifest::merge`: only merged when the base
already has a health block, and then `uri` and `wait` fill
independently where unset; an override health block is ignored when
the base has none. -/
def healthMerge (selfH mfH : Option HealthCheck) : Option HealthCheck :=
  match mfH with
  | none => selfH
  | some rhs =>
    match selfH with
    | none => none   -- only merge health defaults if we already have HealthCheck data
    | some lhs =>
      some { lhs with
             uri := match lhs.uri with
                    | none => rhs.uri
                    | some u => some u,
             wait := match lhs.wait with
                     | none => rhs.wait
                     | some w => some w }

/-- Embedding of `Manifest::merge` on an already-parsed override layer
`mf`: env keys first-wins, image repository/tag fill when unset,
resources / volume mounts / init containers / replicas / volumes fill
when entirely absent, health per `healthMerge`.  The leading
`self.name.clone().unwrap()` panics when the base has no name. -/
def Manifest.merge (self mf : Manifest) : Option Manifest :=
  match self.name with
  | none => none   -- self.name.clone().unwrap() panics
  | some _name =>
    let env' := envMerge self.env mf.env
    match mergeImage self.image mf.image with
    | none => none
    | some image' =>
      match mergeResources self.resources mf.resources with
      | none => none
      | some resources' =>
        some { self with
               env := env'
               image := image'
               resources := resources'
               volume_mounts :=
                 if self.volume_mounts.isEmpty && !mf.volume_mounts.isEmpty
                 then mf.volume_mounts else self.volume_mounts
               init_containers :=
                 if self.init_containers.isEmpty && !mf.init_containers.isEmpty
                 then mf.init_containers else self.init_containers
               replicas :=
                 if self.replicas.isNone && mf.replicas.isSome
                 then mf.replicas else self.replicas
               health := healthMerge self.health mf.health
               volumes :=
                 if self.volumes.isEmpty && !mf.volumes.isEmpty
                 then mf.volumes else self.volumes }

/-! ## Region stamping and `Manifest::fill` -/

/-- The final step of `Manifest::fill`: split the region on `-`; fail
unless there are exactly two parts, then set `_namespace` and
`_location` from them. -/
def stamp (region : String) (m : Manifest) : Except String Manifest :=
  let region_parts := splitChar '-' region.data
  if region_parts.length ≠ 2 then
    .error ("invalid region " ++ region)
  else
    .ok { m with _namespace := String.mk (region_parts.getD 0 [])
                 _location := String.mk (region_parts.getD 1 []) }

/-- Embedding of `Manifest::fill`: implicits, then secrets when a vault
client is supplied, then the service-region and global-region override
merges (each modelled as the already-parsed file contents, `none` when
the file does not exist), then the region stamp. -/
def Manifest.fill (region : String) (client : Option VaultClient)
    (localOv globalOv : Option Manifest) (m : Manifest) :
    Option (Except String Manifest) :=
  match m.implicits with
  | none => none
  | some m1 =>
    match (match client with
           | none => some (Except.ok m1)
           | some c => m1.secrets c region) with
    | none => none
    | some (.error e) => some (.error e)
    | some (.ok m2) =>
      match (match localOv with
             | none => some m2
             | some ov => m2.merge ov) with
      | none => none
      | some m3 =>
        match (match globalOv with
               | none => some m3
               | some ov => m3.merge ov) with
        | none => none
        | some m4 =>
          match stamp region m4 with
          | .error e => some (.error e)
          | .ok m5 => some (.ok m5)

/-! ## Validation (`Manifest::verify`) -/

/-- Model of Rust `"...".parse::<usize>()` for the api-version strings:
non-empty all-digit strings parse. -/
def parseUsize (s : String) : Option ℕ :=
  if s ≠ "" && s.data.all Char.isDigit then some (digitsVal s.data) else none

/-- The configs rule of `verify`: mount path non-empty, not `"~"`, and
slash-terminated; every file templated (`.j2`).  The error messages
unwrap `cfgmap.name`, so an unnamed config map panics while formatting
the error. -/
def checkConfigs : Option ConfigMap → Option (Except String Unit)
  | none => some (.ok ())   -- only warns
  | some cfgmap =>
    if cfgmap.mount = "" || cfgmap.mount = "~" then
      match cfgmap.name with
      | none => none   -- cfgmap.name.clone().unwrap() panics
      | some n => some (.error ("Empty mountpath for " ++ n ++ " mount "))
    else if !endsWithStr "/" cfgmap.mount then
      match cfgmap.name with
      | none => none   -- cfgmap.name.clone().unwrap() panics
      | some n =>
        some (.error ("Mount path " ++ cfgmap.mount ++ " for " ++ n ++
                      " must end with a slash"))
    else if cfgmap.files.any (fun f => !endsWithStr ".j2" f.name) then
      some (.error "Only supporting templated config files atm")
    else some (.ok ())

/-- The dependencies rule of `verify`: the referenced service directory
must exist; `assert!(d.api.is_some())` panics when an api is missing;
the api with leading `v`s stripped must parse as an integer. -/
def checkDeps (fs : FS) : List Dependency → Option (Except String Unit)
  | [] => some (.ok ())
  | d :: rest =>
    if !fs.service_dir_exists d.name then
      some (.error ("Service " ++ d.name ++ " does not exist in services/"))
    else
      match d.api with
      | none => none   -- assert!(d.api.is_some()) fails: panic
      | some apiv =>
        let vstr := String.mk (apiv.data.dropWhile (fun ch => ch == 'v'))
        match parseUsize vstr with
        | none => some (.error "invalid digit found in string")
        | some _ => checkDeps fs rest

/-- The per-region rule of `verify`: each declared region needs its
`environments/{r}.yml` file. -/
def checkRegionsList (fs : FS) : List String → Except String Unit
  | [] => .ok ()
  | r :: rest =>
    if !fs.region_file_exists r then
      .error ("Unsupported region " ++ r ++ " without region file")
    else checkRegionsList fs rest

/-- The unanchored regex `(?:[a-z]+/)?([a-z]+)(?::[0-9]+)?` used by
`verify` on init-container images: `is_match` succeeds exactly when the
string contains at least one ASCII lowercase letter (the shortest
match is a single `[a-z]` character and every other part is optional). -/
def imageRegexMatch (s : String) : Bool :=
  s.data.any (fun ch => 'a' ≤ ch && ch ≤ 'z')

/-- The init-container rule of `verify`: image must match the registry
regex and a command must be present. -/
def checkInits : List InitContainer → Except String Unit
  | [] => .ok ()
  | ic :: rest =>
    if !imageRegexMatch ic.image then
      .error ("The init container " ++ ic.name ++
              " does not seem to match a valid image registry")
    else if ic.command.isEmpty then
      .error ("A command must be specified for the init container " ++ ic.name)
    else checkInits rest

/-- The health rule of `verify`: `assert!(health.port.is_some())`
panics when the port is unset; `uri` and `wait` must both be present. -/
def checkHealth : Option HealthCheck → Option (Except String Unit)
  | none => some (.ok ())
  | some health =>
    match health.port with
    | none => none   -- assert!(health.port.is_some()) fails: panic
    | some _ =>
      if health.uri.isNone then
        some (.error "Service without health check uri")
      else if health.wait.isNone then
        some (.error "Service without health check wait time")
      else some (.ok ())

/-- Embedding of `Manifest::verify`.  The resource block and its
requests/limits sub-blocks are unwrapped without checks ("We can
unwrap all the values as we assume implicit called!"), so their absence
panics (`none`).  Then: quantities parse, request ≤ limit, sanity
ceilings, configs, dependencies, regions (existence then non-empty),
init containers, health. -/
def Manifest.verify (m : Manifest) (fs : FS) : Option (Except String Unit) :=
  match m.name with
  | none => some (.error "Name cannot be empty")
  | some name =>
    if name = "" then some (.error "Name cannot be empty") else
    match m.resources with
    | none => none   -- self.resources.clone().unwrap() panics
    | some res =>
      match res.requests with
      | none => none   -- .requests.unwrap() panics
      | some req =>
        match res.limits with
        | none => none   -- .limits.unwrap() panics
        | some lim =>
          match parse_memory req.memory with
          | .error e => some (.error e)
          | .ok req_memory =>
            match parse_memory lim.memory with
            | .error e => some (.error e)
            | .ok lim_memory =>
              match parse_cpu req.cpu with
              | .error e => some (.error e)
              | .ok req_cpu =>
                match parse_cpu lim.cpu with
                | .error e => some (.error e)
                | .ok lim_cpu =>
                  if req_cpu > lim_cpu then
                    some (.error "Requested more CPU than what was limited")
                  else if req_memory > lim_memory then
                    some (.error "Requested more memory than what was limited")
                  else if req_cpu > 10 then
                    some (.error "Requested more than 10 cores")
                  else if req_memory > 10 * 1024 * 1024 * 1024 then
                    some (.error "Requested more than 10 GB of memory")
                  else if lim_cpu > 20 then
                    some (.error "CPU limit set to more than 20 cores")
                  else if lim_memory > 20 * 1024 * 1024 * 1024 then
                    some (.error "Memory limit set to more than 20 GB of memory")
                  else
                    match checkConfigs m.configs with
                    | none => none
                    | some (.error e) => some (.error e)
                    | some (.ok ()) =>
                      match checkDeps fs m.dependencies with
                      | none => none
                      | some (.error e) => some (.error e)
                      | some (.ok ()) =>
                        match checkRegionsList fs m.regions with
                        | .error e => some (.error e)
                        | .ok () =>
                          if m.regions.isEmpty then
                            some (.error ("No regions specified for " ++ name))
                          else
                            match checkInits m.init_containers with
                            | .error e => some (.error e)
                            | .ok () => checkHealth m.health

/-! ## Decidability helper and concrete fixtures -/

/-- View of `Except` as a sum, used to derive decidable equality. -/
def exceptToSum {ε α : Type} : Except ε α → ε ⊕ α
  | .error e => .inl e
  | .ok a => .inr a

instance {ε α : Type} [DecidableEq ε] [DecidableEq α] : DecidableEq (Except ε α) :=
  fun a b =>
    decidable_of_iff (exceptToSum a = exceptToSum b)
      (by cases a <;> cases b <;> simp [exceptToSum])

/-- A vault client that holds no secrets (instantiation fixture). -/
def dummyVault : VaultClient := fun _ => .error "secret not found"

/-- The base manifest of the spec's merge-precedence example:
`env = {A: "1"}`. -/
def c1Base : Manifest :=
  { emptyManifest with
    name := some "a"
    env := [("A", "1")] }

/-- The override layer of the spec's merge-precedence example:
`env = {A: "2", B: "3"}`. -/
def c1Ov : Manifest :=
  { emptyManifest with
    env := [("A", "2"), ("B", "3")] }

/-- A fully-acceptable manifest: 1 core / 1 GiB requested under a
2 core / 2 GiB limit, one region. -/
def c2OK : Manifest :=
  { emptyManifest with
    name := some "a"
    resources := some { requests := some { cpu := "1", memory := "1Gi" },
                        limits := some { cpu := "2", memory := "2Gi" } }
    regions := ["prod-us"] }

/-- The same manifest with `requests.cpu = "12"` (the spec's
must-reject example). -/
def c2Bad : Manifest :=
  { emptyManifest with
    name := some "a"
    resources := some { requests := some { cpu := "12", memory := "1Gi" },
                        limits := some { cpu := "20", memory := "2Gi" } }
    regions := ["prod-us"] }

/-- A named manifest whose optional `resources` block is absent. -/
def c3NoRes : Manifest :=
  { emptyManifest with
    name := some "a"
    regions := ["prod-us"] }

/-- The stub secret client of the spec's example: `"s3cr3t"` lives at
`"prod-us/billing/DB_PASS"`. -/
def c4Client : VaultClient := fun p =>
  if p = "prod-us/billing/DB_PASS" then .ok "s3cr3t" else .error "secret not found"

/-- The `billing` service manifest with an `IN_VAULT` placeholder. -/
def c4M : Manifest :=
  { emptyManifest with
    name := some "billing"
    env := [("DB_PASS", "IN_VAULT")] }

/-- `c4M` after secret resolution. -/
def c4MResolved : Manifest :=
  { c4M with env := [("DB_PASS", "s3cr3t")] }

/-- A base manifest without any health block. -/
def c7Base : Manifest :=
  { emptyManifest with name := some "a" }

/-- An override layer carrying a health block. -/
def c7Ov : Manifest :=
  { emptyManifest with
    health := some { uri := some "/health", wait := some 30, port := none } }

/-- A base manifest that has a health block with only the port set. -/
def c7BaseH : Manifest :=
  { emptyManifest with
    name := some "a"
    health := some { uri := none, wait := none, port := some 8080 } }

/-- The result of merging `c1Ov` into `c1Base`. -/
def c1Merged : Manifest := { c1Base with env := [("A", "1"), ("B", "3")] }

/-- A manifest with the malformed placeholder `IN_KUBE_SECRETS_FOO`. -/
def c6M : Manifest :=
  { emptyManifest with
    name := some "a"
    env := [("K", "IN_KUBE_SECRETS_FOO")] }

/-- `c7BaseH` after merging `c7Ov`: `uri` and `wait` filled, port kept. -/
def c7MergedH : Manifest :=
  { c7BaseH with
    health := some { uri := some "/health", wait := some 30, port := some 8080 } }

/-! ## Helper lemmas -/

theorem strData_append (a b : String) : (a ++ b).data = a.data ++ b.data := by
  cases a
  cases b
  rfl

theorem splitChar_of_not_mem {c : Char} {l : List Char} (h : c ∉ l) :
    splitChar c l = [l] := by
  induction l with
  | nil => rfl
  | cons x xs ih =>
    simp only [List.mem_cons, not_or] at h
    simp only [splitChar, if_neg (Ne.symm h.1), ih h.2]

theorem splitChar_append {c : Char} {l₁ l₂ : List Char} (h : c ∉ l₁) :
    splitChar c (l₁ ++ c :: l₂) = l₁ :: splitChar c l₂ := by
  induction l₁ with
  | nil => simp [splitChar]
  | cons x xs ih =>
    simp only [List.mem_cons, not_or] at h
    rw [List.cons_append]
    simp only [splitChar, if_neg (Ne.symm h.1)]
    rw [ih h.2]

theorem isPrefixOf_append_self (l rest : List Char) : l.isPrefixOf (l ++ rest) = true := by
  induction l with
  | nil => simp [List.isPrefixOf]
  | cons x xs ih => simp [List.isPrefixOf, ih]

theorem lookupEnv_append_left {env₁ env₂ : List (String × String)} {k v : String}
    (h : lookupEnv env₁ k = some v) :
    lookupEnv (env₁ ++ env₂) k = some v := by
  induction env₁ with
  | nil => simp [lookupEnv] at h
  | cons p rest ih =>
    simp only [lookupEnv, List.cons_append] at h ⊢
    split at h
    · simp_all
    · simp_all [ih h]

theorem lookupEnv_append_right {env₁ env₂ : List (String × String)} {k : String}
    (h : lookupEnv env₁ k = none) :
    lookupEnv (env₁ ++ env₂) k = lookupEnv env₂ k := by
  induction env₁ with
  | nil => rfl
  | cons p rest ih =>
    simp only [lookupEnv, List.cons_append] at h ⊢
    split at h
    · exact absurd h (by simp)
    · simp_all [ih h]

theorem lookupEnv_none_iff {env : List (String × String)} {k : String} :
    lookupEnv env k = none ↔ env.any (fun p => p.1 = k) = false := by
  induction env with
  | nil => simp [lookupEnv]
  | cons p rest ih =>
    simp only [lookupEnv, List.any_cons]
    split <;> simp_all

theorem envMerge_lookup_left {base : List (String × String)}
    (ov : List (String × String)) {k v : String}
    (h : lookupEnv base k = some v) :
    lookupEnv (envMerge base ov) k = some v := by
  induction ov generalizing base with
  | nil => exact h
  | cons kv rest ih =>
    simp only [envMerge, List.foldl_cons] at *
    split
    · exact ih h
    · exact ih (lookupEnv_append_left h)

theorem envMerge_lookup_right {base ov : List (String × String)} {k : String}
    (h : lookupEnv base k = none) :
    lookupEnv (envMerge base ov) k = lookupEnv ov k := by
  induction ov generalizing base with
  | nil => exact h
  | cons kv rest ih =>
    simp only [envMerge, List.foldl_cons] at *
    by_cases hk : kv.1 = k
    · have hany : base.any (fun p => p.1 = kv.1) = false := by
        rw [hk]
        exact lookupEnv_none_iff.mp h
      rw [if_neg (by simp [hany])]
      have hlk : lookupEnv (base ++ [kv]) k = some kv.2 := by
        rw [lookupEnv_append_right h]
        simp [lookupEnv, hk]
      have hfin := envMerge_lookup_left rest hlk
      simp only [envMerge] at hfin
      rw [hfin]
      simp [lookupEnv, hk]
    · have step : lookupEnv (if base.any (fun p => p.1 = kv.1) then base
          else base ++ [kv]) k = none := by
        split
        · exact h
        · rw [lookupEnv_append_right h]
          simp [lookupEnv, hk]
      rw [ih step]
      simp [lookupEnv, hk]

theorem merge_some_env {self mf m' : Manifest} (h : self.merge mf = some m') :
    m'.env = envMerge self.env mf.env := by
  unfold Manifest.merge at h
  split at h
  · exact absurd h (by simp)
  · split at h
    · exact absurd h (by simp)
    · split at h
      · exact absurd h (by simp)
      · cases h
        rfl

theorem merge_some_health {self mf m' : Manifest} (h : self.merge mf = some m') :
    m'.health = healthMerge self.health mf.health := by
  unfold Manifest.merge at h
  split at h
  · exact absurd h (by simp)
  · split at h
    · exact absurd h (by simp)
    · split at h
      · exact absurd h (by simp)
      · cases h
        rfl

theorem resolveEnvEntry_vault_ok {client : VaultClient} {region svc k s : String}
    (hread : client (region ++ "/" ++ svc ++ "/" ++ k) = .ok s) :
    resolveEnvEntry client region svc k "IN_VAULT" = some (.ok s) := by
  unfold resolveEnvEntry
  rw [if_pos rfl, hread]

theorem resolveEnvEntry_vault_err {client : VaultClient} {region svc k e : String}
    (hread : client (region ++ "/" ++ svc ++ "/" ++ k) = .error e) :
    resolveEnvEntry client region svc k "IN_VAULT" = some (.error e) := by
  unfold resolveEnvEntry
  rw [if_pos rfl, hread]

theorem secretsEnv_ok_mem {client : VaultClient} {region svc : String}
    {env env' : List (String × String)} {k s : String}
    (hmem : (k, "IN_VAULT") ∈ env)
    (hread : client (region ++ "/" ++ svc ++ "/" ++ k) = .ok s)
    (hok : secretsEnv client region svc env = some (.ok env')) :
    (k, s) ∈ env' := by
  induction env generalizing env' with
  | nil => simp at hmem
  | cons p rest ih =>
    obtain ⟨pk, pv⟩ := p
    simp only [secretsEnv] at hok
    rcases List.mem_cons.mp hmem with heq | hmem'
    · obtain ⟨hk, hv⟩ := Prod.mk.injEq .. ▸ heq
      subst hk
      subst hv
      rw [resolveEnvEntry_vault_ok hread] at hok
      cases hrest : secretsEnv client region svc rest with
      | none => rw [hrest] at hok; simp at hok
      | some r =>
        cases r with
        | error e => rw [hrest] at hok; simp at hok
        | ok rest' =>
          rw [hrest] at hok
          simp only [Option.some.injEq, Except.ok.injEq] at hok
          rw [← hok]
          exact List.mem_cons_self _ _
    · cases hre : resolveEnvEntry client region svc pk pv with
      | none => rw [hre] at hok; simp at hok
      | some r =>
        cases r with
        | error e => rw [hre] at hok; simp at hok
        | ok v' =>
          rw [hre] at hok
          cases hrest : secretsEnv client region svc rest with
          | none => rw [hrest] at hok; simp at hok
          | some r2 =>
            cases r2 with
            | error e => rw [hrest] at hok; simp at hok
            | ok rest' =>
              rw [hrest] at hok
              simp only [Option.some.injEq, Except.ok.injEq] at hok
              rw [← hok]
              exact List.mem_cons_of_mem _ (ih hmem' hrest)

theorem secretsEnv_vault_fail {client : VaultClient} {region svc : String}
    {env : List (String × String)} {k e : String}
    (hmem : (k, "IN_VAULT") ∈ env)
    (hread : client (region ++ "/" ++ svc ++ "/" ++ k) = .error e) :
    ∀ env', secretsEnv client region svc env ≠ some (.ok env') := by
  induction env with
  | nil => simp at hmem
  | cons p rest ih =>
    intro env' hok
    obtain ⟨pk, pv⟩ := p
    simp only [secretsEnv] at hok
    rcases List.mem_cons.mp hmem with heq | hmem'
    · obtain ⟨hk, hv⟩ := Prod.mk.injEq .. ▸ heq
      subst hk
      subst hv
      rw [resolveEnvEntry_vault_err hread] at hok
      simp at hok
    · cases hre : resolveEnvEntry client region svc pk pv with
      | none => rw [hre] at hok; simp at hok
      | some r =>
        cases r with
        | error e2 => rw [hre] at hok; simp at hok
        | ok v' =>
          rw [hre] at hok
          cases hrest : secretsEnv client region svc rest with
          | none => rw [hrest] at hok; simp at hok
          | some r2 =>
            cases r2 with
            | error e2 => rw [hrest] at hok; simp at hok
            | ok rest' =>
              rw [hrest] at hok
              exact ih hmem' rest' hrest

theorem implicits_of_name {m : Manifest} {n : String} (h : m.name = some n) :
    ∃ m1, m.implicits = some m1 ∧ m1.env = m.env ∧ m1.name = some n ∧
      m1.vault = m.vault := by
  unfold Manifest.implicits
  rw [h]
  exact ⟨_, rfl, rfl, rfl, rfl⟩

theorem secrets_not_ok {client : VaultClient} {region : String} {m : Manifest}
    {svc k e : String}
    (hsvc : (match m.vault with
             | some vopts => some vopts.name
             | none => m.name) = some svc)
    (hmem : (k, "IN_VAULT") ∈ m.env)
    (hread : client (region ++ "/" ++ svc ++ "/" ++ k) = .error e) :
    ∀ m2, m.secrets client region ≠ some (.ok m2) := by
  intro m2 hok
  unfold Manifest.secrets at hok
  split at hok
  · simp at hok
  · next svc₂ heq =>
    rw [hsvc] at heq
    have hseq : svc₂ = svc := by simpa using heq.symm
    rw [hseq] at hok
    cases hse : secretsEnv client region svc m.env with
    | none => rw [hse] at hok; simp at hok
    | some r =>
      cases r with
      | error e2 => rw [hse] at hok; simp at hok
      | ok env' => exact secretsEnv_vault_fail hmem hread env' hse

theorem verify_ok_bounds : ∀ (m : Manifest) (fs : FS), m.verify fs = some (.ok ()) →
    ∃ res req lim, m.resources = some res ∧ res.requests = some req ∧
      res.limits = some lim ∧
      ∃ rc rm lc lm,
        parse_cpu req.cpu = .ok rc ∧ parse_memory req.memory = .ok rm ∧
        parse_cpu lim.cpu = .ok lc ∧ parse_memory lim.memory = .ok lm ∧
        rc ≤ lc ∧ rm ≤ lm ∧ rc ≤ 10 ∧ rm ≤ 10 * 1024 * 1024 * 1024 ∧
        lc ≤ 20 ∧ lm ≤ 20 * 1024 * 1024 * 1024 := by
  intro m fs h
  unfold Manifest.verify at h
  split at h
  next => simp at h
  next name hname =>
    split at h
    next => simp at h
    next hne =>
      split at h
      next => simp at h
      next res hres =>
        split at h
        next => simp at h
        next req hreq =>
          split at h
          next => simp at h
          next lim hlim =>
            split at h
            next => simp at h
            next rm hrm =>
              split at h
              next => simp at h
              next lm hlm =>
                split at h
                next => simp at h
                next rc hrc =>
                  split at h
                  next => simp at h
                  next lc hlc =>
                    split at h
                    next => simp at h
                    next h1 =>
                      split at h
                      next => simp at h
                      next h2 =>
                        split at h
                        next => simp at h
                        next h3 =>
                          split at h
                          next => simp at h
                          next h4 =>
                            split at h
                            next => simp at h
                            next h5 =>
                              split at h
                              next => simp at h
                              next h6 =>
                                exact ⟨res, req, lim, hres, hreq, hlim,
                                  rc, rm, lc, lm, hrc, hrm, hlc, hlm,
                                  not_lt.mp h1, not_lt.mp h2, not_lt.mp h3,
                                  not_lt.mp h4, not_lt.mp h5, not_lt.mp h6⟩

/-! ## The claims -/

/-- Claim C1: merge precedence for environment variables.  For every
merge of an override layer into an accumulated manifest that completes
without panicking, each env key already present in the accumulated map
keeps its existing value, and a key present only in the override layer
is added with the override value; in particular a base with
`env = [A ↦ 1]` merged with an override `env = [A ↦ 2, B ↦ 3]` yields
`env = [A ↦ 1, B ↦ 3]`. -/
theorem merge_env_first_wins :
    (∀ base ov m' : Manifest, base.merge ov = some m' →
       (∀ k v, lookupEnv base.env k = some v → lookupEnv m'.env k = some v) ∧
       (∀ k, lookupEnv base.env k = none → lookupEnv m'.env k = lookupEnv ov.env k)) ∧
    (c1Base.merge c1Ov).map Manifest.env = some [("A", "1"), ("B", "3")] := by
  constructor
  · intro base ov m' h
    rw [merge_some_env h]
    exact ⟨fun k v hk => envMerge_lookup_left _ hk, fun k hk => envMerge_lookup_right hk⟩
  · decide

/-- Witness for C1: the general clauses instantiated on the concrete
example merge. -/
theorem merge_env_first_wins_witness :
    lookupEnv c1Merged.env "A" = some "1" ∧ lookupEnv c1Merged.env "B" = some "3" :=
  ⟨(merge_env_first_wins.1 c1Base c1Ov c1Merged (by decide)).1 "A" "1" (by decide),
   ((merge_env_first_wins.1 c1Base c1Ov c1Merged (by decide)).2 "B" (by decide)).trans
     (by decide)⟩

/-- Claim C2: resource bound invariant.  Every manifest on which
`verify` returns `Ok` has a resources block whose parsed quantities
satisfy request ≤ limit on both dimensions, request cpu ≤ 10,
request memory ≤ 10 GiB, limit cpu ≤ 20 and limit memory ≤ 20 GiB;
and the concrete manifest with `requests.cpu = "12"` is rejected. -/
theorem resource_bound_invariant :
    (∀ (m : Manifest) (fs : FS), m.verify fs = some (.ok ()) →
       ∃ res req lim, m.resources = some res ∧ res.requests = some req ∧
         res.limits = some lim ∧
         ∃ rc rm lc lm,
           parse_cpu req.cpu = .ok rc ∧ parse_memory req.memory = .ok rm ∧
           parse_cpu lim.cpu = .ok lc ∧ parse_memory lim.memory = .ok lm ∧
           rc ≤ lc ∧ rm ≤ lm ∧ rc ≤ 10 ∧ rm ≤ 10 * 1024 * 1024 * 1024 ∧
           lc ≤ 20 ∧ lm ≤ 20 * 1024 * 1024 * 1024) ∧
    c2Bad.verify trueFS = some (.error "Requested more than 10 cores") := by
  constructor
  · exact verify_ok_bounds
  · simp +decide [Manifest.verify, c2Bad, emptyManifest, parse_cpu, parse_memory, numPart,
      unitPart, parseDecimal, splitChar, digitsVal, isNumChar]

/-- Witness for C2: a concrete manifest accepted by `verify`, with the
bound conclusions instantiated on it. -/
theorem resource_bound_invariant_witness :
    c2OK.verify trueFS = some (.ok ()) ∧
    (∃ res req lim, c2OK.resources = some res ∧ res.requests = some req ∧
      res.limits = some lim ∧
      ∃ rc rm lc lm,
        parse_cpu req.cpu = .ok rc ∧ parse_memory req.memory = .ok rm ∧
        parse_cpu lim.cpu = .ok lc ∧ parse_memory lim.memory = .ok lm ∧
        rc ≤ lc ∧ rm ≤ lm ∧ rc ≤ 10 ∧ rm ≤ 10 * 1024 * 1024 * 1024 ∧
        lc ≤ 20 ∧ lm ≤ 20 * 1024 * 1024 * 1024) := by
  have hok : c2OK.verify trueFS = some (.ok ()) := by
    simp +decide [Manifest.verify, c2OK, emptyManifest, parse_cpu, parse_memory, numPart,
      unitPart, parseDecimal, splitChar, digitsVal, isNumChar, checkConfigs, checkDeps,
      checkRegionsList, checkInits, checkHealth, trueFS] <;> norm_num
  exact ⟨hok, resource_bound_invariant.1 c2OK trueFS hok⟩

/-- Claim C3 (code bug): `verify` is not total.  On a well-named
manifest whose optional `resources` block is absent — which resolution
does not guarantee to fill — `verify` panics (`unwrap` on `None`,
modelled as `none`) instead of returning `Ok` or a `ValidationError`,
although its own comment claims the unwraps are safe after implicits. -/
theorem verify_panics_without_resources :
    c3NoRes.verify trueFS = none := by decide

/-- Claim C4: `IN_VAULT` resolution.  With a secret client supplied,
every env entry whose value is exactly `IN_VAULT` is replaced by the
client read of `{region}/{svc}/{key}`, where `svc` is the vault-name
override when present and the manifest name otherwise; and when such a
read fails, the whole `fill` resolution fails — no resolved manifest is
produced. -/
theorem secret_in_vault_resolution :
    ∀ (client : VaultClient) (region : String) (m : Manifest) (n svc : String),
      m.name = some n →
      svc = (match m.vault with | some vopts => vopts.name | none => n) →
      ((∀ m' k s, m.secrets client region = some (.ok m') →
          (k, "IN_VAULT") ∈ m.env →
          client (region ++ "/" ++ svc ++ "/" ++ k) = .ok s →
          (k, s) ∈ m'.env) ∧
       (∀ k e, (k, "IN_VAULT") ∈ m.env →
          client (region ++ "/" ++ svc ++ "/" ++ k) = .error e →
          ∀ lo go m'', m.fill region (some client) lo go ≠ some (.ok m''))) := by
  intro client region m n svc hname hsvc
  have hsvc' : (match m.vault with
      | some vopts => some vopts.name
      | none => m.name) = some svc := by
    cases hv : m.vault with
    | none =>
      rw [hv] at hsvc
      simp only [] at hsvc
      rw [hname, hsvc]
    | some vo =>
      rw [hv] at hsvc
      simp only [] at hsvc
      rw [hsvc]
  constructor
  · intro m' k s hok hmem hread
    unfold Manifest.secrets at hok
    split at hok
    · simp at hok
    · next svc₂ heq =>
      rw [hsvc'] at heq
      have hseq : svc₂ = svc := by simpa using heq.symm
      rw [hseq] at hok
      cases hse : secretsEnv client region svc m.env with
      | none => rw [hse] at hok; simp at hok
      | some r =>
        cases r with
        | error e => rw [hse] at hok; simp at hok
        | ok env' =>
          rw [hse] at hok
          simp only [Option.some.injEq, Except.ok.injEq] at hok
          rw [← hok]
          exact secretsEnv_ok_mem hmem hread hse
  · intro k e hmem hread lo go m'' hfill
    obtain ⟨m1, him, henv, hname1, hvault1⟩ := implicits_of_name hname
    have hsvc1 : (match m1.vault with
        | some vopts => some vopts.name
        | none => m1.name) = some svc := by
      rw [hvault1, hname1]
      cases hv : m.vault with
      | none =>
        rw [hv] at hsvc'
        rw [hname] at hsvc'
        simpa using hsvc'
      | some vo =>
        rw [hv] at hsvc'
        simpa using hsvc'
    unfold Manifest.fill at hfill
    split at hfill
    · next heq => rw [him] at heq; simp at heq
    · next m1' heq =>
      rw [him] at heq
      have hmeq : m1' = m1 := by simpa using heq.symm
      rw [hmeq] at hfill
      split at hfill
      · rename_i heq2
        have heq2' : m1.secrets client region = none := heq2
        simp at hfill
      · rename_i e2 heq2
        simp at hfill
      · rename_i m2 heq2
        have heq2' : m1.secrets client region = some (.ok m2) := heq2
        refine secrets_not_ok hsvc1 ?_ hread m2 heq2'
        rw [henv]
        exact hmem

/-- Witness for C4: the spec example — `DB_PASS = IN_VAULT` on service
`billing` in region `prod-us` resolves to the stub client secret. -/
theorem secret_in_vault_resolution_witness :
    ("DB_PASS", "s3cr3t") ∈ c4MResolved.env :=
  (secret_in_vault_resolution c4Client "prod-us" c4M "billing" "billing" rfl rfl).1
    c4MResolved "DB_PASS" "s3cr3t" (by decide) (by decide) (by decide)

/-- Claim C5: kube-secret derivation.  A bare `IN_KUBE_SECRETS` value
is rewritten to `kube-secret-` followed by the env key lowercased with
underscores turned into hyphens; `IN_KUBE_SECRETS:<subkey>` (non-empty,
colon-free subkey) applies the same derivation to the subkey; the empty
subkey `IN_KUBE_SECRETS:` fails with the invalid-secret-path error. -/
theorem kube_secret_derivation :
    (∀ (client : VaultClient) (region svc k : String),
       resolveEnvEntry client region svc k "IN_KUBE_SECRETS" =
         some (.ok ("kube-secret-" ++ lowerKebab k))) ∧
    (∀ (client : VaultClient) (region svc k : String) (sub : String),
       sub ≠ "" → containsChar ':' sub = false →
       resolveEnvEntry client region svc k ("IN_KUBE_SECRETS:" ++ sub) =
         some (.ok ("kube-secret-" ++ lowerKebab sub))) ∧
    (∀ (client : VaultClient) (region svc k : String),
       resolveEnvEntry client region svc k "IN_KUBE_SECRETS:" =
         some (.error "IN_KUBE_SECRETS: does not have a valid key path")) := by
  refine ⟨fun client region svc k => rfl, ?_, fun client region svc k => rfl⟩
  intro client region svc k sub hne hnc
  obtain ⟨sd⟩ := sub
  have hsd : sd ≠ [] := fun h => hne (by rw [h])
  have hnotmem : ':' ∉ sd := by simpa [containsChar] using hnc
  have hvdata : ("IN_KUBE_SECRETS:" ++ String.mk sd).data
      = "IN_KUBE_SECRETS".data ++ ':' :: sd := by
    rw [strData_append,
        show "IN_KUBE_SECRETS:".data = "IN_KUBE_SECRETS".data ++ [':'] from rfl,
        List.append_assoc]
    rfl
  have hnotvault : ("IN_KUBE_SECRETS:" ++ String.mk sd) ≠ "IN_VAULT" := by
    intro h
    have hlen := congrArg (fun s => s.data.length) h
    simp only [hvdata] at hlen
    simp [List.length_append] at hlen
  have hstarts : startsWithStr "IN_KUBE_SECRETS"
      ("IN_KUBE_SECRETS:" ++ String.mk sd) = true := by
    unfold startsWithStr
    rw [hvdata]
    exact isPrefixOf_append_self _ _
  have hneq2 : ("IN_KUBE_SECRETS:" ++ String.mk sd) ≠ "IN_KUBE_SECRETS" := by
    intro h
    have hlen := congrArg (fun s => s.data.length) h
    simp only [hvdata] at hlen
    simp [List.length_append] at hlen
  have hcont : containsChar ':' ("IN_KUBE_SECRETS:" ++ String.mk sd) = true := by
    unfold containsChar
    rw [hvdata]
    simp
  have hsplit : splitChar ':' ("IN_KUBE_SECRETS:" ++ String.mk sd).data
      = ["IN_KUBE_SECRETS".data, sd] := by
    rw [hvdata, splitChar_append (by decide), splitChar_of_not_mem hnotmem]
  simp only [resolveEnvEntry]
  rw [if_neg hnotvault, if_pos hstarts, if_neg hneq2, if_pos hcont, hsplit]
  have hgetd : (["IN_KUBE_SECRETS".data, sd].getD 1 []) = sd := by simp
  rw [hgetd]
  rw [if_neg (by simpa using hsd)]

/-- Witness for C5: the subkey clause instantiated on `MY_SUB`. -/
theorem kube_secret_derivation_witness :
    resolveEnvEntry dummyVault "prod-us" "billing" "API_KEY"
      ("IN_KUBE_SECRETS:" ++ "MY_SUB") =
      some (.ok ("kube-secret-" ++ lowerKebab "MY_SUB")) :=
  kube_secret_derivation.2.1 dummyVault "prod-us" "billing" "API_KEY" "MY_SUB"
    (by decide) (by decide)

/-- Claim C6 (code bug): a value starting with the `IN_KUBE_SECRETS`
prefix, containing no colon and different from the bare prefix — such
as `IN_KUBE_SECRETS_FOO` — does not produce an `InvalidSecretPath`
error: the failing `assert!(v.contains(':'))` makes the secrets step
panic (modelled as `none`), both entry-wise and on a whole manifest. -/
theorem kube_malformed_panics :
    resolveEnvEntry dummyVault "prod-us" "billing" "K" "IN_KUBE_SECRETS_FOO" = none ∧
    Manifest.secrets dummyVault "prod-us" c6M = none := by
  decide

/-- Counterexample for C7: an override health block does NOT fill an
absent base health block — merging `c7Ov` (which carries health) into
`c7Base` (which has none) leaves the merged manifest without health. -/
theorem merge_drops_override_health :
    c7Base.merge c7Ov = some c7Base ∧ c7Base.health = none ∧ c7Ov.health ≠ none := by
  decide

/-- Claim C7 (amended): during merge, an override health block is
ignored when the accumulating manifest has no health block at all
(health does not fill when entirely absent, unlike resources etc.);
when the base has a health block, `uri` and `wait` fill independently
where unset and the port is kept. -/
theorem merge_health_policy :
    ∀ self mf m' : Manifest, self.merge mf = some m' →
      (self.health = none → m'.health = none) ∧
      (mf.health = none → m'.health = self.health) ∧
      (∀ lhs rhs, self.health = some lhs → mf.health = some rhs →
        m'.health = some { uri := match lhs.uri with | none => rhs.uri | some u => some u,
                           wait := match lhs.wait with | none => rhs.wait | some w => some w,
                           port := lhs.port }) := by
  intro self mf m' h
  rw [merge_some_health h]
  unfold healthMerge
  refine ⟨?_, ?_, ?_⟩
  · intro hs
    rw [hs]
    cases mf.health <;> rfl
  · intro hm
    rw [hm]
  · intro lhs rhs hs hm
    rw [hs, hm]

/-- Witness for C7: merging `c7Ov` into a base that has a health block
with only the port set fills `uri` and `wait` from the override. -/
theorem merge_health_policy_witness :
    c7MergedH.health = some { uri := some "/health", wait := some 30, port := some 8080 } :=
  (merge_health_policy c7BaseH c7Ov c7MergedH (by decide)).2.2
    { uri := none, wait := none, port := some 8080 }
    { uri := some "/health", wait := some 30, port := none } rfl rfl

/-- Counterexample for C8: regions `-us` and `prod-` — two dash-
separated segments of which one is empty — are accepted by the stamp
step, with the empty segment stored, not rejected as the claim states. -/
theorem stamp_counterexample :
    stamp "-us" emptyManifest =
      .ok { emptyManifest with _namespace := "", _location := "us" } ∧
    stamp "prod-" emptyManifest =
      .ok { emptyManifest with _namespace := "prod", _location := "" } := by
  decide

/-- Claim C8 (amended): the stamp step fails with the invalid-region
error unless the region splits on `-` into exactly two segments — the
segments may be empty — and on success sets `_namespace` to the first
segment and `_location` to the second; `prod-us-east` is rejected. -/
theorem stamp_two_segments :
    ∀ (region : String) (m : Manifest),
      (∀ ns loc, splitChar '-' region.data = [ns, loc] →
         stamp region m = .ok { m with _namespace := String.mk ns,
                                       _location := String.mk loc }) ∧
      ((splitChar '-' region.data).length ≠ 2 →
         stamp region m = .error ("invalid region " ++ region)) := by
  intro region m
  constructor
  · intro ns loc h
    simp only [stamp]
    rw [h]
    simp
  · intro h
    simp only [stamp]
    rw [if_pos h]

/-- Witness for C8: `prod-us` stamps namespace and location; the
three-segment `prod-us-east` is rejected. -/
theorem stamp_two_segments_witness :
    stamp "prod-us" emptyManifest =
      .ok { emptyManifest with _namespace := String.mk "prod".data,
                               _location := String.mk "us".data } ∧
    stamp "prod-us-east" emptyManifest = .error ("invalid region " ++ "prod-us-east") :=
  ⟨(stamp_two_segments "prod-us" emptyManifest).1 "prod".data "us".data (by decide),
   (stamp_two_segments "prod-us-east" emptyManifest).2 (by decide)⟩

/-- Counterexample for C9: resolving a descriptor that leaves `name`
unset does not succeed with the name filled in — `fill` panics (the
leading `self.name.clone().unwrap()` of implicits), modelled as `none`. -/
theorem nameless_fill_counterexample :
    Manifest.fill "prod-us" none none none emptyManifest = none ∧
    emptyManifest.name = none := by
  decide

/-- Claim C9 (amended): resolution does not fill a missing name from
the service directory; for every manifest without a name, `fill`
panics (returns `none`) for every region, client and override layers. -/
theorem nameless_fill_panics :
    ∀ (region : String) (client : Option VaultClient) (lo go : Option Manifest)
      (m : Manifest), m.name = none → m.fill region client lo go = none := by
  intro region client lo go m h
  unfold Manifest.fill
  have him : m.implicits = none := by
    unfold Manifest.implicits
    rw [h]
  rw [him]

/-- Witness for C9: the nameless empty manifest. -/
theorem nameless_fill_panics_witness :
    Manifest.fill "prod-us" none none none emptyManifest = none :=
  nameless_fill_panics "prod-us" none none none emptyManifest rfl

/-- Claim C10: the quantity parser.  `parse_memory` scales by 1024,
1024², 1024³ for `Ki`, `Mi`, `Gi` and by 1000, 1000², 1000³ for `k`,
`M`, `G`, with the empty unit meaning bytes; `parse_cpu` divides by
1000 for `m` and multiplies by 1000 for `k`; any other non-empty unit
fails with the unknown-unit error, and an unparsable digit run fails
with the invalid-number error. -/
theorem quantity_parser_spec :
    parse_memory "512Mi" = .ok (512 * 1024 * 1024) ∧
    parse_memory "1Gi" = .ok (1024 ^ 3) ∧
    parse_memory "1Ki" = .ok 1024 ∧
    parse_memory "2k" = .ok 2000 ∧
    parse_memory "3M" = .ok 3000000 ∧
    parse_memory "4G" = .ok 4000000000 ∧
    parse_memory "123" = .ok 123 ∧
    parse_cpu "200m" = .ok (0.2 : ℚ) ∧
    parse_cpu "2" = .ok 2 ∧
    parse_cpu "3k" = .ok 3000 ∧
    (∀ s q, parseDecimal (numPart s) = some q →
       unitPart s ∉ (["Ki", "Mi", "Gi", "k", "M", "G", ""] : List String) →
       parse_memory s = .error ("Unknown unit " ++ unitPart s)) ∧
    (∀ s q, parseDecimal (numPart s) = some q →
       unitPart s ∉ (["m", "k", ""] : List String) →
       parse_cpu s = .error ("Unknown unit " ++ unitPart s)) ∧
    (∀ s, parseDecimal (numPart s) = none →
       parse_memory s = .error "invalid float literal" ∧
       parse_cpu s = .error "invalid float literal") := by
  refine ⟨?_, ?_, ?_, ?_, ?_, ?_, ?_, ?_, ?_, ?_, ?_, ?_, ?_⟩
  · simp +decide [parse_memory, numPart, unitPart, parseDecimal, splitChar, digitsVal,
      isNumChar] <;> norm_num
  · simp +decide [parse_memory, numPart, unitPart, parseDecimal, splitChar, digitsVal,
      isNumChar] <;> norm_num
  · simp +decide [parse_memory, numPart, unitPart, parseDecimal, splitChar, digitsVal,
      isNumChar] <;> norm_num
  · simp +decide [parse_memory, numPart, unitPart, parseDecimal, splitChar, digitsVal,
      isNumChar] <;> norm_num
  · simp +decide [parse_memory, numPart, unitPart, parseDecimal, splitChar, digitsVal,
      isNumChar] <;> norm_num
  · simp +decide [parse_memory, numPart, unitPart, parseDecimal, splitChar, digitsVal,
      isNumChar] <;> norm_num
  · simp +decide [parse_memory, numPart, unitPart, parseDecimal, splitChar, digitsVal,
      isNumChar] <;> norm_num
  · simp +decide [parse_cpu, numPart, unitPart, parseDecimal, splitChar, digitsVal,
      isNumChar] <;> norm_num
  · simp +decide [parse_cpu, numPart, unitPart, parseDecimal, splitChar, digitsVal,
      isNumChar] <;> norm_num
  · simp +decide [parse_cpu, numPart, unitPart, parseDecimal, splitChar, digitsVal,
      isNumChar] <;> norm_num
  · intro s q hq hu
    simp only [List.mem_cons, List.mem_singleton, not_or] at hu
    obtain ⟨h1, h2, h3, h4, h5, h6, h7⟩ := hu
    simp only [parse_memory, hq]
    rw [if_neg h1, if_neg h2, if_neg h3, if_neg h4, if_neg h5, if_neg h6, if_pos h7.1]
  · intro s q hq hu
    simp only [List.mem_cons, List.mem_singleton, not_or] at hu
    obtain ⟨h1, h2, h3⟩ := hu
    simp only [parse_cpu, hq]
    rw [if_neg h1, if_neg h2, if_pos h3.1]
  · intro s h
    constructor
    · simp only [parse_memory, h]
    · simp only [parse_cpu, h]

/-- Witness for C10: the general failure clauses instantiated — an
unknown unit `Xi` for both parsers, and the unparsable run `1.2.3`. -/
theorem quantity_parser_spec_witness :
    parse_memory "512Xi" = .error ("Unknown unit " ++ unitPart "512Xi") ∧
    parse_cpu "2Xi" = .error ("Unknown unit " ++ unitPart "2Xi") ∧
    parse_memory "1.2.3" = .error "invalid float literal" := by
  obtain ⟨-, -, -, -, -, -, -, -, -, -, hmem, hcpu, hnum⟩ := quantity_parser_spec
  exact ⟨hmem "512Xi" ((digitsVal ['5', '1', '2'] : ℕ) : ℚ) rfl (by decide),
         hcpu "2Xi" ((digitsVal ['2'] : ℕ) : ℚ) rfl (by decide),
         (hnum "1.2.3" rfl).1⟩
